import Mathlib

/-!
Shallow embedding of the ingestion script `getRecipe.py`.

The script fetches a batch of recipe records from a remote API, deduplicates
them against a local-file-backed identifier cache (lazily hydrated from the
remote document store), derives a few structured fields (equipment list,
categorized nutrition facts, numeric calorie value) and writes new records
to the document store.

External effects are made explicit: the local cache file is a value of type
`Option String` (`none` = the file does not exist), the document store is an
association list from document id to document, printed lines and
store/cache effects are recorded in an event trace, and Python exceptions
are values of type `PyErr` (an uncaught exception surfaces as `some e` next
to the final state).
-/

/- ### Character classes (ASCII model of the regex classes used by the source) -/

/-- An ASCII digit, modelling the digit class in the source's patterns. -/
def isDigitChar (c : Char) : Bool := '0' ≤ c && c ≤ '9'

/-- An ASCII letter, as in the character class 0-9a-zA-Z of line 95. -/
def isAsciiLetter (c : Char) : Bool :=
  ('a' ≤ c && c ≤ 'z') || ('A' ≤ c && c ≤ 'Z')

/-- Whitespace as matched by the regex whitespace class (ASCII part). -/
def isWsChar (c : Char) : Bool :=
  c = ' ' || c = '\t' || c = '\n' || c = '\r' || c = '\x0b' || c = '\x0c'

/-- A character kept by the cleaning substitution of line 95
    (everything that is not a letter, digit or whitespace is removed). -/
def keepChar (c : Char) : Bool := isDigitChar c || isAsciiLetter c || isWsChar c

/-- Line 95: remove every character that is not a letter, digit or whitespace. -/
def clean (s : String) : String := String.mk (s.toList.filter keepChar)

/-- Line 122: remove every non-digit character. -/
def stripNonDigits (s : String) : String := String.mk (s.toList.filter isDigitChar)

/-- Value of a non-empty all-digit string, as Python int() computes it. -/
def digitsToNat (l : List Char) : Nat :=
  l.foldl (fun a c => 10 * a + (c.toNat - 48)) 0

/- ### The four nutrition patterns (one or more digits followed by a literal) -/

/-- Does `cs` begin with one or more digits immediately followed by `lit`?
    This is the anchored form of the source patterns of lines 83-86: a
    greedy digit run then a literal whose first character is not a digit. -/
def matchNumLit (lit : List Char) (cs : List Char) : Bool :=
  cs.takeWhile isDigitChar ≠ [] && lit.isPrefixOf (cs.dropWhile isDigitChar)

/-- Unanchored search: does the pattern digits-then-`lit` occur anywhere in
    `cs`?  Models re.search of lines 93. -/
def searchNumLit (lit : List Char) : List Char → Bool
  | [] => false
  | c :: rest => matchNumLit lit (c :: rest) || searchNumLit lit rest

/- ### Extraction of bold-wrapped fragments (line 79) -/

/-- Scan for the first closing bold tag, failing on a newline first: the
    non-greedy dot of the findall pattern on line 79 does not cross a
    newline and stops at the earliest closing tag.  Returns the fragment
    and the remainder of the text after the closing tag. -/
def takeUntilCloseB : List Char → Option (List Char × List Char)
  | '<' :: '/' :: 'b' :: '>' :: rest => some ([], rest)
  | '\n' :: _ => none
  | c :: rest =>
    match takeUntilCloseB rest with
    | some (content, rest') => some (c :: content, rest')
    | none => none
  | [] => none

/-- Left-to-right non-overlapping scan of findall: at an opening bold tag,
    take the shortest fragment up to a closing tag and resume after it; if
    no closing tag is reachable, resume one character later.  The fuel is
    the length of the text, which bounds the number of scan steps. -/
def bTagsAux : Nat → List Char → List (List Char)
  | 0, _ => []
  | _ + 1, [] => []
  | fuel + 1, '<' :: 'b' :: '>' :: rest =>
    match takeUntilCloseB rest with
    | some (content, rest') => content :: bTagsAux fuel rest'
    | none => bTagsAux fuel ('b' :: '>' :: rest)
  | fuel + 1, _ :: rest => bTagsAux fuel rest

/-- All fragments wrapped in bold tags, in order of appearance (line 79). -/
def bTags (s : String) : List String :=
  (bTagsAux s.toList.length s.toList).map String.mk

/- ### Nutrition categories (lines 82-99) -/

/-- The four fixed nutrition categories of lines 82-87. -/
inductive Category
  | cost
  | protein
  | fat
  | calories
deriving DecidableEq, Repr

/-- The fixed iteration order of the categories dictionary (lines 82-87). -/
def catOrder : List Category := [Category.cost, Category.protein, Category.fat, Category.calories]

/-- The categorized-nutrition dictionary: at most one cleaned string per
    category (a Python dict with the four fixed keys of lines 82-87). -/
structure NutMap where
  cost : Option String := none
  protein : Option String := none
  fat : Option String := none
  calories : Option String := none
deriving DecidableEq, Repr

def NutMap.empty : NutMap := {}

/-- Dictionary assignment categorized_data[category] = clean_data (line 96). -/
def NutMap.set (m : NutMap) : Category → String → NutMap
  | Category.cost, v => { m with cost := some v }
  | Category.protein, v => { m with protein := some v }
  | Category.fat, v => { m with fat := some v }
  | Category.calories, v => { m with calories := some v }

/-- Dictionary lookup by category. -/
def NutMap.get (m : NutMap) : Category → Option String
  | Category.cost => m.cost
  | Category.protein => m.protein
  | Category.fat => m.fat
  | Category.calories => m.calories

/-- The search of line 93 for each category's pattern (lines 83-86). -/
def catSearch : Category → String → Bool
  | Category.cost, t => searchNumLit (String.toList " cents per serving") t.toList
  | Category.protein, t => searchNumLit (String.toList "g of protein") t.toList
  | Category.fat, t => searchNumLit (String.toList "g of fat") t.toList
  | Category.calories, t => searchNumLit (String.toList " calories") t.toList

/-- The inner loop of lines 92-97: try the four patterns in dictionary
    order and stop at the first that matches (the break on line 97). -/
def classify (tag : String) : Option Category :=
  if catSearch Category.cost tag then some Category.cost
  else if catSearch Category.protein tag then some Category.protein
  else if catSearch Category.fat tag then some Category.fat
  else if catSearch Category.calories tag then some Category.calories
  else none

/-- Lines 76-99: extract the bold-wrapped fragments and fold them into the
    categorized dictionary; a classified fragment stores its cleaned text
    under its category, overwriting any earlier value. -/
def extract_and_categorize (text : String) : NutMap :=
  (bTags text).foldl
    (fun m tag =>
      match classify tag with
      | some c => m.set c (clean tag)
      | none => m)
    NutMap.empty

/- ### Calorie derivation (lines 119-129) -/

/-- Python exception values visible to this model. -/
inductive PyErr
  | keyError (key : String)
  | valueError
deriving DecidableEq, Repr

/-- The message text printed for a caught exception (line 158). -/
def errMsg : PyErr → String
  | PyErr.keyError k => "KeyError " ++ k
  | PyErr.valueError => "invalid literal for int with base 10"

/-- Lines 119-129: if a Calories entry is present, strip the non-digits and
    convert to an integer — int() on an empty string raises ValueError —
    otherwise the derived value is 0. -/
def deriveCalories (nut : NutMap) : Except PyErr Nat :=
  match nut.get Category.calories with
  | some s =>
    let d := stripNonDigits s
    if d.toList = [] then Except.error PyErr.valueError
    else Except.ok (digitsToNat d.toList)
  | none => Except.ok 0

/- ### Equipment extraction (lines 67-74) -/

structure Equip where
  name : String
deriving DecidableEq, Repr

structure RecipeStep where
  equipment : Option (List Equip) := none
deriving DecidableEq, Repr

structure Instruction where
  steps : Option (List RecipeStep) := none
deriving DecidableEq, Repr

/-- Key insertion into an insertion-ordered dictionary whose values are all
    the boolean true: an existing key keeps its position, a new key is
    appended (the assignments on lines 47 and 153, and set insertion). -/
def dictInsert (c : List String) (k : String) : List String :=
  if k ∈ c then c else c ++ [k]

/-- Lines 67-74: walk every step of every instruction group (both lists
    optional) and collect the distinct equipment names; first-occurrence
    order stands in for Python's unordered set iteration. -/
def extract_equipment (analyzed : List Instruction) : List String :=
  analyzed.foldl
    (fun acc instr =>
      (instr.steps.getD []).foldl
        (fun acc2 step =>
          (step.equipment.getD []).foldl (fun acc3 e => dictInsert acc3 e.name) acc2)
        acc)
    []

/- ### The cache file (lines 22-36): a JSON object of identifier -> true

json.load and json.dump are modelled on the only shape the program reads
and writes: a flat object whose values are the literal true and whose keys
contain no escape sequences.  Any other text is classified as malformed,
and the source maps a decode error to an empty cache. -/

/-- Parser state for the cache-file JSON object. -/
inductive PJ
  | start
  | afterOpen
  | inKey (acc : List Char)
  | afterKey
  | afterColon
  | inTrue (rest : List Char)
  | afterVal
  | afterComma
  | done
  | failed
deriving DecidableEq, Repr

/-- JSON inter-token whitespace. -/
def isJsonWs (c : Char) : Bool := c = ' ' || c = '\t' || c = '\n' || c = '\r'

/-- One character step of the cache-file parser. -/
def jstep : PJ × List String → Char → PJ × List String
  | (PJ.start, ks), c =>
    if isJsonWs c then (PJ.start, ks)
    else if c = '\x7b' then (PJ.afterOpen, ks)
    else (PJ.failed, ks)
  | (PJ.afterOpen, ks), c =>
    if isJsonWs c then (PJ.afterOpen, ks)
    else if c = '\x7d' then (PJ.done, ks)
    else if c = '"' then (PJ.inKey [], ks)
    else (PJ.failed, ks)
  | (PJ.inKey acc, ks), c =>
    if c = '"' then (PJ.afterKey, ks ++ [String.mk acc])
    else if c = '\\' || c.toNat < 32 then (PJ.failed, ks)
    else (PJ.inKey (acc ++ [c]), ks)
  | (PJ.afterKey, ks), c =>
    if isJsonWs c then (PJ.afterKey, ks)
    else if c = ':' then (PJ.afterColon, ks)
    else (PJ.failed, ks)
  | (PJ.afterColon, ks), c =>
    if isJsonWs c then (PJ.afterColon, ks)
    else if c = 't' then (PJ.inTrue ['r', 'u', 'e'], ks)
    else (PJ.failed, ks)
  | (PJ.inTrue (r :: rest), ks), c =>
    if c = r then (if rest = [] then (PJ.afterVal, ks) else (PJ.inTrue rest, ks))
    else (PJ.failed, ks)
  | (PJ.inTrue [], ks), _ => (PJ.failed, ks)
  | (PJ.afterVal, ks), c =>
    if isJsonWs c then (PJ.afterVal, ks)
    else if c = ',' then (PJ.afterComma, ks)
    else if c = '\x7d' then (PJ.done, ks)
    else (PJ.failed, ks)
  | (PJ.afterComma, ks), c =>
    if isJsonWs c then (PJ.afterComma, ks)
    else if c = '"' then (PJ.inKey [], ks)
    else (PJ.failed, ks)
  | (PJ.done, ks), c =>
    if isJsonWs c then (PJ.done, ks) else (PJ.failed, ks)
  | (PJ.failed, ks), _ => (PJ.failed, ks)

/-- The json.load of line 27 on the cache-file shape: the ordered key list
    of the object, or none on malformed content (the decode error). -/
def parseCache (s : String) : Option (List String) :=
  match s.toList.foldl jstep (PJ.start, []) with
  | (PJ.done, ks) => some ks
  | _ => none

/-- json.dump of one key/value entry: a quoted key, a colon, a space and
    the literal true. -/
def dumpEntryChars (k : String) : List Char :=
  '"' :: (k.toList ++ ['"', ':', ' ', 't', 'r', 'u', 'e'])

/-- json.dump of the entries, separated by a comma and a space. -/
def dumpEntriesChars : List String → List Char
  | [] => []
  | [k] => dumpEntryChars k
  | k :: k' :: ks => dumpEntryChars k ++ ([',', ' '] ++ dumpEntriesChars (k' :: ks))

/-- json.dump of the whole cache object (line 36): the entries between an
    opening and a closing brace. -/
def dumpCache (ks : List String) : String :=
  String.mk ('\x7b' :: (dumpEntriesChars ks ++ ['\x7d']))

/-- A character that the modelled dump writes without escaping. -/
def safeChar (c : Char) : Bool := c ≠ '"' && c ≠ '\\' && 32 ≤ c.toNat

/-- A key whose dump text parses back verbatim. -/
def safeKey (k : String) : Bool := k.toList.all safeChar

/-- Lines 22-31: load the cache file; a missing file, or any content that
    fails to decode (an empty file included), yields an empty cache. -/
def load_uid_cache (file : Option String) : List String :=
  match file with
  | none => []
  | some s =>
    match parseCache s with
    | some ks => ks
    | none => []

/-- Lines 33-36: serialize the cache and write it as the new file text. -/
def save_uid_cache (cache : List String) : Option String :=
  some (dumpCache cache)

/-- Lines 63-65: membership test against the cache; every stored value is
    the boolean true, so get(str(id), False) is exactly key membership. -/
def recipe_exists (cache : List String) (recipe_id : Int) : Bool :=
  cache.contains (toString recipe_id)

/-- Lines 38-48: load the local file; when the result is empty, stream the
    identifiers of the remote recipes collection into the cache and save
    it.  Returns the cache, the file text, and whether the remote store was
    streamed (the hydration branch of lines 42-48 was taken). -/
def initialize_uid_cache (file : Option String) (remote : List String) :
    List String × Option String × Bool :=
  if (load_uid_cache file).isEmpty then
    (remote.foldl dictInsert (load_uid_cache file),
      save_uid_cache (remote.foldl dictInsert (load_uid_cache file)), true)
  else
    (load_uid_cache file, file, false)

/- ### Recipe records and stored documents (lines 101-158) -/

/-- One entry of extendedIngredients (line 110); the amount is an integer
    stand-in for the numeric JSON field. -/
structure Ingredient where
  name : String
  amount : Int
  unit : String
deriving DecidableEq, Repr

/-- A raw recipe record from the API.  A field read with bracket access in
    the source raises KeyError when it is none; a field read with .get
    falls back to its default. -/
structure Recipe where
  id : Option Int := none
  title : Option String := none
  extendedIngredients : Option (List Ingredient) := none
  analyzedInstructions : Option (List Instruction) := none
  summary : Option String := none
  instructions : Option String := none
  vegetarian : Option Bool := none
  vegan : Option Bool := none
  glutenFree : Option Bool := none
  dairyFree : Option Bool := none
  healthScore : Option Int := none
  readyInMinutes : Option Int := none
  servings : Option Int := none
  image : Option String := none
  sourceUrl : Option String := none
deriving DecidableEq, Repr

/-- The document written to the recipes collection (lines 132-150).  The
    cost field is the string from the nutrition dictionary, or none for the
    integer default 0 of line 149. -/
structure Doc where
  title : String
  ingredients : List (String × String)
  instructions : String
  vegetarian : Bool
  vegan : Bool
  glutenFree : Bool
  dairyFree : Bool
  healthiness : Int
  calories : Nat
  time : Int
  servings : Int
  image : String
  source : String
  equipment : List String
  summary : String
  nutritional : NutMap
  cost : Option String
deriving DecidableEq, Repr

/-- Insert-or-overwrite into an insertion-ordered association list: an
    existing key keeps its position with the new value, a new key is
    appended (Python dict assignment, and the create-or-overwrite write of
    doc_ref.set). -/
def assocSet {α : Type} : List (String × α) → String → α → List (String × α)
  | [], k, v => [(k, v)]
  | (k', v') :: t, k, v =>
    if k' = k then (k, v) :: t else (k', v') :: assocSet t k v

/-- Bracket access recipe[key]: KeyError when the key is absent. -/
def getKey {α : Type} (v : Option α) (key : String) : Except PyErr α :=
  match v with
  | some a => Except.ok a
  | none => Except.error (PyErr.keyError key)

/-- Lines 108-111: the ingredients dictionary, name -> "amount unit"; a
    later ingredient with the same name overwrites the earlier one. -/
def buildIngredients (ings : List Ingredient) : List (String × String) :=
  ings.foldl (fun m i => assocSet m i.name (toString i.amount ++ " " ++ i.unit)) []

/-- Lines 106-150 inside the non-duplicate branch: evaluate every field of
    the document, in the source's evaluation order, propagating the first
    exception; the successful result is the field map passed to
    doc_ref.set. -/
def buildRecord (r : Recipe) : Except PyErr Doc :=
  match r.extendedIngredients with
  | none => Except.error (PyErr.keyError "extendedIngredients")
  | some ings =>
    match deriveCalories (extract_and_categorize (r.summary.getD "")) with
    | Except.error e => Except.error e
    | Except.ok caloriesInt =>
      match r.title with
      | none => Except.error (PyErr.keyError "title")
      | some title =>
        match r.instructions with
        | none => Except.error (PyErr.keyError "instructions")
        | some instr =>
          match r.summary with
          | none => Except.error (PyErr.keyError "summary")
          | some summary =>
            Except.ok
              { title := title
                ingredients := buildIngredients ings
                instructions := if instr = "" then "No instructions provided" else instr
                vegetarian := r.vegetarian.getD false
                vegan := r.vegan.getD false
                glutenFree := r.glutenFree.getD false
                dairyFree := r.dairyFree.getD false
                healthiness := r.healthScore.getD 0
                calories := caloriesInt
                time := r.readyInMinutes.getD 0
                servings := r.servings.getD 0
                image := r.image.getD ""
                source := r.sourceUrl.getD ""
                equipment := extract_equipment (r.analyzedInstructions.getD [])
                summary := summary
                nutritional := extract_and_categorize (r.summary.getD "")
                cost := (extract_and_categorize (r.summary.getD "")).get Category.cost }

/- ### The pipeline state and event trace -/

/-- Observable events of a run: printed lines, document-store writes and
    cache insertions, in the order they happen. -/
inductive Ev
  | dup (title : String)
  | stored (title : String)
  | errStore (title msg : String)
  | fsWrite (id : String)
  | cacheAdd (id : String)
  | errFetch (msg : String)
  | noRecipes
  | successMsg
deriving DecidableEq, Repr

/-- The mutable world of a run: the in-memory cache, the cache-file text,
    the documents of the remote recipes collection, and the event trace. -/
structure St where
  cache : List String
  file : Option String
  fs : List (String × Doc)
  log : List Ev
deriving DecidableEq, Repr

/-- The body of the per-record try block (lines 105-156): read the id,
    either log a duplicate or build the document, write it, log success and
    add the identifier to the cache (which rewrites the cache file).  Any
    exception escapes to the handler. -/
def buildAndWrite (st : St) (r : Recipe) : Except PyErr St :=
  match r.id with
  | none => Except.error (PyErr.keyError "id")
  | some rid =>
    if recipe_exists st.cache rid then
      match r.title with
      | none => Except.error (PyErr.keyError "title")
      | some t => Except.ok { st with log := st.log ++ [Ev.dup t] }
    else
      match buildRecord r with
      | Except.error e => Except.error e
      | Except.ok doc =>
        Except.ok
          { st with
            fs := assocSet st.fs (toString rid) doc
            cache := dictInsert st.cache (toString rid)
            file := save_uid_cache (dictInsert st.cache (toString rid))
            log := st.log ++
              [Ev.fsWrite (toString rid), Ev.stored doc.title,
                Ev.cacheAdd (toString rid)] }

/-- One loop iteration of store_recipes with its handler (lines 104-158):
    a caught exception logs the record's title and the message; the log
    statement itself reads recipe title with bracket access, so a record
    without a title re-raises KeyError out of the handler. -/
def processRecord (st : St) (r : Recipe) : St × Option PyErr :=
  match buildAndWrite st r with
  | Except.ok st' => (st', none)
  | Except.error e =>
    match r.title with
    | none => (st, some (PyErr.keyError "title"))
    | some t => ({ st with log := st.log ++ [Ev.errStore t (errMsg e)] }, none)

/-- Lines 101-158: process the fetched records in order; an exception that
    escapes a handler aborts the loop and surfaces next to the state. -/
def store_recipes (st : St) : List Recipe → St × Option PyErr
  | [] => (st, none)
  | r :: rs =>
    match processRecord st r with
    | (st', none) => store_recipes st' rs
    | (st', some e) => (st', some e)

/- ### The fetch and the top level (lines 50-61, 160-167) -/

/-- The decoded JSON body of a successful response; the recipes field is
    absent when the body does not have the expected shape. -/
structure ApiBody where
  recipes : Option (List Recipe) := none

/-- Lines 50-61: a network or HTTP-status failure (the input's error case)
    is caught, logged and turned into an empty list; on success the recipes
    array of the body is returned verbatim, and a body without a recipes
    key raises KeyError, which nothing catches. -/
def fetch_recipes (resp : Except String ApiBody) : Except PyErr (List Recipe) × List Ev :=
  match resp with
  | Except.error e =>
    (Except.ok [], [Ev.errFetch ("An error occurred while fetching recipes: " ++ e)])
  | Except.ok body =>
    match body.recipes with
    | some rs => (Except.ok rs, [])
    | none => (Except.error (PyErr.keyError "recipes"), [])

/-- Lines 160-167: initialize the cache, fetch, then either store the batch
    and report success or report that there is nothing to store.  An
    uncaught exception surfaces next to the final state. -/
def runMain (file : Option String) (fs0 : List (String × Doc))
    (resp : Except String ApiBody) : St × Option PyErr :=
  let init := initialize_uid_cache file (fs0.map Prod.fst)
  let fetched := fetch_recipes resp
  let st0 : St := { cache := init.1, file := init.2.1, fs := fs0, log := fetched.2 }
  match fetched.1 with
  | Except.error e => (st0, some e)
  | Except.ok rs =>
    if rs.isEmpty then ({ st0 with log := st0.log ++ [Ev.noRecipes] }, none)
    else
      match store_recipes st0 rs with
      | (st1, none) => ({ st1 with log := st1.log ++ [Ev.successMsg] }, none)
      | (st1, some e) => (st1, some e)

/- ### Event classifiers and concrete example inputs -/

/-- Is the event a document-store write? -/
def isWriteEv : Ev → Bool
  | Ev.fsWrite _ => true
  | _ => false

/-- Is the event a cache insertion? -/
def isAddEv : Ev → Bool
  | Ev.cacheAdd _ => true
  | _ => false

/-- An empty initial run state. -/
def st0 : St := { cache := [], file := none, fs := [], log := [] }

/-- An initial state whose cache already holds identifier 1. -/
def stCached : St := { cache := ["1"], file := none, fs := [], log := [] }

/-- A record with no fields at all. -/
def recNoFields : Recipe := {}

/-- A record that duplicates the cached identifier 1. -/
def recDup : Recipe := { id := some 1, title := some "A" }

/-- A minimal well-formed new record. -/
def recGood : Recipe :=
  { id := some 2, title := some "Good", extendedIngredients := some [],
    summary := some "", instructions := some "mix well" }

/-- The document the pipeline builds for recGood. -/
def docGood : Doc :=
  { title := "Good", ingredients := [], instructions := "mix well",
    vegetarian := false, vegan := false, glutenFree := false, dairyFree := false,
    healthiness := 0, calories := 0, time := 0, servings := 0, image := "",
    source := "", equipment := [], summary := "", nutritional := {}, cost := none }

/-- A well-formed record whose raw instructions string is empty. -/
def recEmptyInstr : Recipe :=
  { id := some 3, title := some "E", extendedIngredients := some [],
    summary := some "", instructions := some "" }

/-- The document the pipeline builds for recEmptyInstr. -/
def docEmptyInstr : Doc :=
  { docGood with title := "E", instructions := "No instructions provided" }

/- ### Helper lemmas -/

lemma NutMap.get_set_same (m : NutMap) (c : Category) (v : String) :
    (m.set c v).get c = some v := by
  cases c <;> simp [NutMap.set, NutMap.get]

lemma NutMap.get_set_ne (m : NutMap) (c c' : Category) (v : String) (h : c' ≠ c) :
    (m.set c v).get c' = m.get c' := by
  cases c <;> cases c' <;> simp_all [NutMap.set, NutMap.get]

lemma NutMap.get_empty (c : Category) : NutMap.empty.get c = none := by
  cases c <;> simp [NutMap.empty, NutMap.get]

lemma getLast?_cons_some {α : Type} (y : α) (ys : List α) :
    ∃ z, (y :: ys).getLast? = some z := by
  induction ys generalizing y with
  | nil => exact ⟨y, rfl⟩
  | cons b bs ih =>
    obtain ⟨z, hz⟩ := ih b
    exact ⟨z, by rw [List.getLast?_cons_cons]; exact hz⟩

/-- The value a left fold of classified fragments leaves under a category:
    the cleaned text of the last fragment classified there, or the initial
    value when no fragment lands there. -/
lemma categorize_foldl (l : List String) (m : NutMap) (c : Category) :
    ((l.foldl
        (fun acc tag =>
          match classify tag with
          | some cat => acc.set cat (clean tag)
          | none => acc)
        m).get c) =
      ((l.filter (fun t => classify t == some c)).getLast?).elim (m.get c)
        (fun t => some (clean t)) := by
  induction l generalizing m with
  | nil => simp
  | cons t l ih =>
    rw [List.foldl_cons, ih]
    cases hcl : classify t with
    | none => simp [List.filter_cons, hcl]
    | some c' =>
      by_cases hcc : c' = c
      · subst hcc
        rw [show ((t :: l).filter (fun t => classify t == some c')) =
            t :: l.filter (fun t => classify t == some c') from by
          simp [List.filter_cons, hcl]]
        cases hfl : l.filter (fun t => classify t == some c') with
        | nil => simp [hfl, hcl, NutMap.get_set_same]
        | cons y ys =>
          obtain ⟨z, hz⟩ := getLast?_cons_some y ys
          simp [hfl, hcl, hz, List.getLast?_cons_cons]
      · rw [show ((t :: l).filter (fun t => classify t == some c)) =
            l.filter (fun t => classify t == some c) from by
          simp [List.filter_cons, hcl, hcc]]
        simp [hcl, NutMap.get_set_ne m c' c _ (fun h => hcc h.symm)]

/- dictInsert membership -/

lemma mem_dictInsert (a k : String) (c : List String) :
    a ∈ dictInsert c k ↔ a ∈ c ∨ a = k := by
  unfold dictInsert
  by_cases h : k ∈ c
  · simp only [h, if_true]
    constructor
    · exact fun ha => Or.inl ha
    · rintro (ha | rfl) <;> assumption
  · simp [h, List.mem_append]

lemma subset_dictInsert (c : List String) (k : String) : c ⊆ dictInsert c k := by
  intro a ha
  exact (mem_dictInsert a k c).2 (Or.inl ha)

lemma self_mem_dictInsert (c : List String) (k : String) : k ∈ dictInsert c k :=
  (mem_dictInsert k k c).2 (Or.inr rfl)

lemma mem_foldl_dictInsert (a : String) (l c : List String) :
    a ∈ l.foldl dictInsert c ↔ a ∈ c ∨ a ∈ l := by
  induction l generalizing c with
  | nil => simp
  | cons k l ih =>
    rw [List.foldl_cons, ih]
    rw [mem_dictInsert]
    constructor
    · rintro ((h | rfl) | h)
      · exact Or.inl h
      · exact Or.inr (List.mem_cons_self _ _)
      · exact Or.inr (List.mem_cons_of_mem _ h)
    · rintro (h | h)
      · exact Or.inl (Or.inl h)
      · rcases List.mem_cons.1 h with rfl | h
        · exact Or.inl (Or.inr rfl)
        · exact Or.inr h

lemma subset_foldl_dictInsert (l c : List String) : c ⊆ l.foldl dictInsert c := by
  intro a ha
  exact (mem_foldl_dictInsert a l c).2 (Or.inl ha)

/- ### Cache-file roundtrip: parsing the dumped cache restores the keys -/

lemma toList_mk (l : List Char) : (String.mk l).toList = l := rfl

lemma mk_toList (s : String) : String.mk s.toList = s := rfl

lemma foldl_jstep_key (k : List Char) (h : ∀ c ∈ k, safeChar c = true)
    (acc : List Char) (ks : List String) :
    k.foldl jstep (PJ.inKey acc, ks) = (PJ.inKey (acc ++ k), ks) := by
  induction k generalizing acc with
  | nil => simp
  | cons c cs ih =>
    have hc := h c (List.mem_cons_self c cs)
    simp only [safeChar, Bool.and_eq_true, decide_eq_true_eq] at hc
    obtain ⟨⟨h1, h2⟩, h3⟩ := hc
    have h4 : ¬ (c.toNat < 32) := by omega
    have hstep : jstep (PJ.inKey acc, ks) c = (PJ.inKey (acc ++ [c]), ks) := by
      simp [jstep, h1, h2, h4]
    rw [List.foldl_cons, hstep, ih (fun x hx => h x (List.mem_cons_of_mem _ hx))]
    simp

lemma foldl_jstep_entry (k : String) (hk : safeKey k = true) (ks : List String) (st : PJ)
    (hst : st = PJ.afterOpen ∨ st = PJ.afterComma) :
    (dumpEntryChars k).foldl jstep (st, ks) = (PJ.afterVal, ks ++ [k]) := by
  have hopen : jstep (st, ks) '"' = (PJ.inKey [], ks) := by
    rcases hst with rfl | rfl <;> rfl
  have hsafe : ∀ c ∈ k.toList, safeChar c = true := by
    intro c hc
    exact List.all_eq_true.1 hk c hc
  rw [dumpEntryChars, List.foldl_cons, hopen, List.foldl_append,
    foldl_jstep_key k.toList hsafe [] ks]
  have htail : List.foldl jstep (PJ.inKey ([] ++ k.toList), ks)
      ['"', ':', ' ', 't', 'r', 'u', 'e'] =
      (PJ.afterVal, ks ++ [String.mk ([] ++ k.toList)]) := rfl
  rw [htail]
  simp [mk_toList]

lemma foldl_jstep_entries_cons (t : List String) (k : String)
    (h : ∀ x ∈ k :: t, safeKey x = true) (ks : List String) (st : PJ)
    (hst : st = PJ.afterOpen ∨ st = PJ.afterComma) :
    (dumpEntriesChars (k :: t)).foldl jstep (st, ks) = (PJ.afterVal, ks ++ (k :: t)) := by
  induction t generalizing k ks st with
  | nil =>
    rw [show dumpEntriesChars [k] = dumpEntryChars k from rfl]
    exact foldl_jstep_entry k (h k (List.mem_cons_self k [])) ks st hst
  | cons k' t ih =>
    rw [show dumpEntriesChars (k :: k' :: t) =
        dumpEntryChars k ++ ([',', ' '] ++ dumpEntriesChars (k' :: t)) from rfl]
    rw [List.foldl_append,
      foldl_jstep_entry k (h k (List.mem_cons_self k (k' :: t))) ks st hst,
      List.foldl_append]
    have hcomma : List.foldl jstep (PJ.afterVal, ks ++ [k]) [',', ' '] =
        (PJ.afterComma, ks ++ [k]) := rfl
    rw [hcomma,
      ih k' (fun x hx => h x (List.mem_cons_of_mem _ hx)) (ks ++ [k]) PJ.afterComma
        (Or.inr rfl)]
    simp

/-- Parsing the dumped cache file restores exactly the dumped keys. -/
lemma parseCache_dumpCache (ks : List String) (h : ∀ k ∈ ks, safeKey k = true) :
    parseCache (dumpCache ks) = some ks := by
  unfold parseCache dumpCache
  rw [toList_mk]
  cases ks with
  | nil => rfl
  | cons k t =>
    rw [List.foldl_cons,
      show jstep (PJ.start, ([] : List String)) '\x7b' = (PJ.afterOpen, []) from rfl,
      List.foldl_append,
      foldl_jstep_entries_cons t k h [] PJ.afterOpen (Or.inl rfl)]
    rfl

/-- Reloading the saved cache yields the cache back. -/
lemma load_save (ks : List String) (h : ∀ k ∈ ks, safeKey k = true) :
    load_uid_cache (save_uid_cache ks) = ks := by
  simp [load_uid_cache, save_uid_cache, parseCache_dumpCache ks h]

/- ### Pipeline lemmas -/

lemma buildAndWrite_ok_cache (st : St) (r : Recipe) (st' : St)
    (h : buildAndWrite st r = Except.ok st') :
    st'.cache = st.cache ∨
      ∃ rid, r.id = some rid ∧ st'.cache = dictInsert st.cache (toString rid) := by
  unfold buildAndWrite at h
  split at h
  · simp at h
  · rename_i rid heq
    split at h
    · split at h
      · simp at h
      · injection h with h2
        exact Or.inl (by rw [← h2])
    · split at h
      · simp at h
      · rename_i doc hbr
        injection h with h2
        exact Or.inr ⟨rid, heq, by rw [← h2]⟩

lemma processRecord_cache_subset (st : St) (r : Recipe) :
    st.cache ⊆ (processRecord st r).1.cache := by
  unfold processRecord
  cases hbw : buildAndWrite st r with
  | error e => cases ht : r.title <;> exact fun a ha => ha
  | ok st' =>
    rcases buildAndWrite_ok_cache st r st' hbw with heq | ⟨rid, _, heq⟩
    · intro a ha
      show a ∈ st'.cache
      rw [heq]
      exact ha
    · intro a ha
      show a ∈ st'.cache
      rw [heq]
      exact subset_dictInsert st.cache (toString rid) ha

lemma store_recipes_cache_subset (rs : List Recipe) (st : St) :
    st.cache ⊆ (store_recipes st rs).1.cache := by
  induction rs generalizing st with
  | nil => exact fun a ha => ha
  | cons r rs ih =>
    have h1 := processRecord_cache_subset st r
    unfold store_recipes
    cases hp : processRecord st r with
    | mk st' e =>
      rw [hp] at h1
      cases e with
      | none => exact h1.trans (ih st')
      | some e => exact h1

lemma processRecord_ok_of_title (st : St) (r : Recipe) (t : String)
    (ht : r.title = some t) :
    (processRecord st r).2 = none := by
  unfold processRecord
  cases hbw : buildAndWrite st r with
  | ok st' => rfl
  | error e => rw [ht]

lemma processRecord_error_logs (st : St) (r : Recipe) (t : String) (e : PyErr)
    (ht : r.title = some t) (he : buildAndWrite st r = Except.error e) :
    processRecord st r =
      ({ st with log := st.log ++ [Ev.errStore t (errMsg e)] }, none) := by
  unfold processRecord
  rw [he, ht]

lemma store_recipes_cons_ok (st : St) (r : Recipe) (rs : List Recipe) (st' : St)
    (h : processRecord st r = (st', none)) :
    store_recipes st (r :: rs) = store_recipes st' rs := by
  simp only [store_recipes]
  rw [h]

/- ### Claim theorems -/

/-- C1: the code derives 450 from a Calories entry of 450 calories and 0
    when the Calories category is absent, but on a Calories entry that
    contains no digit it raises ValueError — int() is applied to an empty
    string — instead of yielding 0 as the specification requires. -/
theorem c1_deriveCalories_no_digit_raises :
    deriveCalories { calories := some "calories" } = Except.error PyErr.valueError ∧
      deriveCalories { calories := some "450 calories" } = Except.ok 450 ∧
        deriveCalories {} = Except.ok 0 :=
  ⟨rfl, rfl, rfl⟩

/-- C2 counterexample: a batch of a field-less record followed by a
    well-formed new record; the first record's failure escapes the handler
    because the handler's own title access raises again, so the batch
    aborts and the second record is never stored. -/
theorem c2_failure_aborts_counterexample :
    store_recipes st0 [recNoFields, recGood] = (st0, some (PyErr.keyError "title")) :=
  rfl

/-- C2 amended: when the record has a title, any error in building or
    writing it is caught, the title and the error message are logged with
    the state otherwise unchanged, and the batch continues with the next
    record; a record without a title aborts the batch as in the
    counterexample. -/
theorem c2_failure_caught_with_title (st : St) (r : Recipe) (rs : List Recipe)
    (t : String) (ht : r.title = some t) :
    (processRecord st r).2 = none ∧
      (∀ e, buildAndWrite st r = Except.error e →
        processRecord st r =
          ({ st with log := st.log ++ [Ev.errStore t (errMsg e)] }, none)) ∧
      store_recipes st (r :: rs) = store_recipes (processRecord st r).1 rs := by
  refine ⟨processRecord_ok_of_title st r t ht, ?_, ?_⟩
  · intro e he
    exact processRecord_error_logs st r t e ht he
  · have hpair : processRecord st r = ((processRecord st r).1, none) := by
      rw [← processRecord_ok_of_title st r t ht]
    exact store_recipes_cons_ok st r rs _ hpair

/-- C2 witness: a record with a title but no id fails, is caught, and does
    not abort the batch. -/
theorem c2_failure_caught_with_title_witness :
    (processRecord st0 { title := some "T" }).2 = none :=
  (c2_failure_caught_with_title st0 { title := some "T" } [] "T" rfl).1

/-- C5: loading the cache file yields the empty cache for a missing file,
    for an empty file, and for any content the parser rejects, and never
    raises a parse error. -/
theorem c5_load_never_fails :
    load_uid_cache none = [] ∧ load_uid_cache (some "") = [] ∧
      ∀ s, parseCache s = none → load_uid_cache (some s) = [] := by
  refine ⟨rfl, rfl, ?_⟩
  intro s hs
  simp [load_uid_cache, hs]

/-- C5 witness: a concrete malformed file text. -/
theorem c5_load_never_fails_witness :
    parseCache "\x7b not json" = none ∧ load_uid_cache (some "\x7b not json") = [] :=
  ⟨by decide, c5_load_never_fails.2.2 "\x7b not json" (by decide)⟩

/-- C8: once an identifier is inserted by the cache add of lines 153-154,
    membership holds in the same run, and still holds in a later run that
    reloads the file the add wrote. -/
theorem c8_add_then_contains (c : List String) (i : Int)
    (hsafe : ∀ k ∈ dictInsert c (toString i), safeKey k = true) :
    recipe_exists (dictInsert c (toString i)) i = true ∧
      recipe_exists
        (load_uid_cache (save_uid_cache (dictInsert c (toString i)))) i = true := by
  have hmem : toString i ∈ dictInsert c (toString i) := self_mem_dictInsert c (toString i)
  constructor
  · exact List.elem_iff.mpr hmem
  · unfold recipe_exists
    rw [load_save _ hsafe]
    exact List.elem_iff.mpr hmem

/-- C8 witness: identifier 7 added to an empty cache. -/
theorem c8_add_then_contains_witness :
    recipe_exists (dictInsert [] (toString (7 : Int))) 7 = true ∧
      recipe_exists
        (load_uid_cache (save_uid_cache (dictInsert [] (toString (7 : Int))))) 7 = true :=
  c8_add_then_contains [] 7 (by decide)

/-- C9: within a run the identifier cache only grows: batch processing and
    cache initialization never remove an identifier. -/
theorem c9_cache_monotone (st : St) (rs : List Recipe) (file : Option String)
    (remote : List String) :
    st.cache ⊆ (store_recipes st rs).1.cache ∧
      load_uid_cache file ⊆ (initialize_uid_cache file remote).1 := by
  refine ⟨store_recipes_cache_subset rs st, ?_⟩
  unfold initialize_uid_cache
  by_cases hc : (load_uid_cache file).isEmpty = true
  · rw [if_pos hc]
    exact subset_foldl_dictInsert remote (load_uid_cache file)
  · rw [if_neg hc]
    exact fun a ha => ha

/-- C9 witness: the empty state and a one-record batch. -/
theorem c9_cache_monotone_witness :
    st0.cache ⊆ (store_recipes st0 [recGood]).1.cache :=
  (c9_cache_monotone st0 [recGood] none []).1

/-- C10: a stored document's instructions field is the placeholder text
    exactly when the record's raw instructions string is empty, and the raw
    string unchanged otherwise. -/
theorem c10_instructions_placeholder (r : Recipe) (doc : Doc)
    (h : buildRecord r = Except.ok doc) :
    (r.instructions = some "" → doc.instructions = "No instructions provided") ∧
      (∀ s, r.instructions = some s → s ≠ "" → doc.instructions = s) := by
  unfold buildRecord at h
  split at h
  · simp at h
  · split at h
    · simp at h
    · split at h
      · simp at h
      · split at h
        · simp at h
        · rename_i instr hinstr
          split at h
          · simp at h
          · injection h with h2
            constructor
            · intro hie
              rw [hinstr] at hie
              injection hie with hie2
              rw [← h2]
              show (if instr = "" then "No instructions provided" else instr) =
                "No instructions provided"
              rw [if_pos hie2]
            · intro s hs hne
              rw [hinstr] at hs
              injection hs with hs2
              rw [← h2]
              show (if instr = "" then "No instructions provided" else instr) = s
              rw [hs2, if_neg hne]

/-- C10 witness: a record with an empty instructions string receives the
    placeholder. -/
theorem c10_instructions_placeholder_witness :
    buildRecord recEmptyInstr = Except.ok docEmptyInstr ∧
      docEmptyInstr.instructions = "No instructions provided" :=
  ⟨rfl, (c10_instructions_placeholder recEmptyInstr docEmptyInstr rfl).1 rfl⟩

/-- C3: a fragment is assigned to at most one category — the first of the
    fixed order whose pattern it matches — and the value stored under a
    category is the cleaned text of the last fragment, in order of
    appearance, assigned to it (last match wins per category). -/
theorem c3_first_match_last_wins (text tag : String) (c : Category) :
    classify tag = catOrder.find? (fun c' => catSearch c' tag) ∧
      (extract_and_categorize text).get c =
        Option.map clean
          (((bTags text).filter (fun t => classify t == some c)).getLast?) := by
  constructor
  · simp only [classify, catOrder]
    cases h1 : catSearch Category.cost tag <;>
      cases h2 : catSearch Category.protein tag <;>
        cases h3 : catSearch Category.fat tag <;>
          cases h4 : catSearch Category.calories tag <;>
            simp [List.find?, h1, h2, h3, h4]
  · unfold extract_and_categorize
    rw [categorize_foldl, NutMap.get_empty]
    cases hgl : ((bTags text).filter (fun t => classify t == some c)).getLast? with
    | none => simp
    | some z => simp

/-- C4: on a batch of a cached record followed by a new buildable record,
    the run performs exactly one document-store write and one cache add,
    with the write before the add, while the cached record causes no write
    and no cache change. -/
theorem c4_one_write_one_add (st : St) (r1 r2 : Recipe) (i1 i2 : Int)
    (t1 : String) (doc : Doc)
    (h1 : r1.id = some i1) (ht1 : r1.title = some t1)
    (hex : recipe_exists st.cache i1 = true)
    (h2 : r2.id = some i2) (hnew : recipe_exists st.cache i2 = false)
    (hb : buildRecord r2 = Except.ok doc) :
    store_recipes st [r1, r2] =
      ({ st with
          fs := assocSet st.fs (toString i2) doc
          cache := dictInsert st.cache (toString i2)
          file := save_uid_cache (dictInsert st.cache (toString i2))
          log := st.log ++
            [Ev.dup t1, Ev.fsWrite (toString i2), Ev.stored doc.title,
              Ev.cacheAdd (toString i2)] }, none) ∧
      List.filter isWriteEv
          [Ev.dup t1, Ev.fsWrite (toString i2), Ev.stored doc.title,
            Ev.cacheAdd (toString i2)] = [Ev.fsWrite (toString i2)] ∧
      List.filter isAddEv
          [Ev.dup t1, Ev.fsWrite (toString i2), Ev.stored doc.title,
            Ev.cacheAdd (toString i2)] = [Ev.cacheAdd (toString i2)] ∧
      List.findIdx isWriteEv
          [Ev.dup t1, Ev.fsWrite (toString i2), Ev.stored doc.title,
            Ev.cacheAdd (toString i2)] <
        List.findIdx isAddEv
          [Ev.dup t1, Ev.fsWrite (toString i2), Ev.stored doc.title,
            Ev.cacheAdd (toString i2)] := by
  refine ⟨?_, rfl, rfl, ?_⟩
  · have hp1 : processRecord st r1 = ({ st with log := st.log ++ [Ev.dup t1] }, none) := by
      simp [processRecord, buildAndWrite, h1, ht1, hex]
    have hp2 : processRecord { st with log := st.log ++ [Ev.dup t1] } r2 =
        ({ st with
            fs := assocSet st.fs (toString i2) doc
            cache := dictInsert st.cache (toString i2)
            file := save_uid_cache (dictInsert st.cache (toString i2))
            log := (st.log ++ [Ev.dup t1]) ++
              [Ev.fsWrite (toString i2), Ev.stored doc.title,
                Ev.cacheAdd (toString i2)] }, none) := by
      simp [processRecord, buildAndWrite, h2, hnew, hb]
    rw [store_recipes_cons_ok st r1 [r2] _ hp1,
      store_recipes_cons_ok _ r2 [] _ hp2]
    simp [store_recipes]
  · show (1 : Nat) < 3
    decide

/-- C4 witness: a cached record with identifier 1 and a new record with
    identifier 2 on a concrete state. -/
theorem c4_one_write_one_add_witness :
    store_recipes stCached [recDup, recGood] =
      ({ stCached with
          fs := assocSet stCached.fs (toString (2 : Int)) docGood
          cache := dictInsert stCached.cache (toString (2 : Int))
          file := save_uid_cache (dictInsert stCached.cache (toString (2 : Int)))
          log := stCached.log ++
            [Ev.dup "A", Ev.fsWrite (toString (2 : Int)), Ev.stored docGood.title,
              Ev.cacheAdd (toString (2 : Int))] }, none) :=
  (c4_one_write_one_add stCached recDup recGood 1 2 "A" docGood rfl rfl (by decide)
    rfl (by decide) rfl).1

/-- C6: hydration from the remote store happens exactly when the loaded
    cache is empty, and immediately after hydration the cache file holds
    exactly the identifiers of the remote listing. -/
theorem c6_hydration_iff_empty (file : Option String) (remote : List String)
    (hsafe : ∀ k ∈ remote, safeKey k = true) :
    ((initialize_uid_cache file remote).2.2 = true ↔ load_uid_cache file = []) ∧
      ((initialize_uid_cache file remote).2.2 = true →
        ∀ k, k ∈ load_uid_cache (initialize_uid_cache file remote).2.1 ↔ k ∈ remote) := by
  unfold initialize_uid_cache
  by_cases hc : (load_uid_cache file).isEmpty = true
  · rw [if_pos hc]
    have hnil : load_uid_cache file = [] := List.isEmpty_iff.1 hc
    constructor
    · simp [hnil]
    · intro _ k
      have hmem : ∀ x ∈ remote.foldl dictInsert (load_uid_cache file),
          safeKey x = true := by
        intro x hx
        rcases (mem_foldl_dictInsert x remote (load_uid_cache file)).1 hx with hx' | hx'
        · rw [hnil] at hx'
          cases hx'
        · exact hsafe x hx'
      show k ∈ load_uid_cache
          (save_uid_cache (remote.foldl dictInsert (load_uid_cache file))) ↔ k ∈ remote
      rw [load_save _ hmem, mem_foldl_dictInsert, hnil]
      simp
  · rw [if_neg hc]
    have hne : ¬ load_uid_cache file = [] := fun h => hc (by rw [h]; rfl)
    constructor
    · constructor
      · intro hft
        exact absurd hft (by simp)
      · intro hl
        exact absurd hl hne
    · intro hft
      exact absurd hft (by simp)

/-- C6 witness: a missing file and a remote listing of one identifier. -/
theorem c6_hydration_iff_empty_witness :
    ((initialize_uid_cache none ["9"]).2.2 = true ↔ load_uid_cache none = []) ∧
      ((initialize_uid_cache none ["9"]).2.2 = true →
        ∀ k, k ∈ load_uid_cache (initialize_uid_cache none ["9"]).2.1 ↔ k ∈ ["9"]) :=
  c6_hydration_iff_empty none ["9"] (by decide)

/-- C7: a network or status failure is logged and becomes the empty list,
    after which the run writes nothing and reports that there are no
    recipes to store; a well-shaped body yields its recipes verbatim; a
    body without the recipes key is a fatal uncaught KeyError. -/
theorem c7_fetch_failure_contract :
    (∀ e, fetch_recipes (Except.error e) =
      (Except.ok [],
        [Ev.errFetch ("An error occurred while fetching recipes: " ++ e)])) ∧
      (∀ rs, fetch_recipes (Except.ok { recipes := some rs }) = (Except.ok rs, [])) ∧
      (fetch_recipes (Except.ok { recipes := none }) =
        (Except.error (PyErr.keyError "recipes"), [])) ∧
      (∀ file fs0 e,
        (runMain file fs0 (Except.error e)).2 = none ∧
          (runMain file fs0 (Except.error e)).1.fs = fs0 ∧
          (runMain file fs0 (Except.error e)).1.log =
            [Ev.errFetch ("An error occurred while fetching recipes: " ++ e),
              Ev.noRecipes]) :=
  ⟨fun _ => rfl, fun _ => rfl, rfl, fun _ _ _ => ⟨rfl, rfl, rfl⟩⟩
